import Mathlib

/-!
Shallow embedding of `src/lib/html.js` (the CommonMark HTML renderer) and
verification of its specified properties.

The renderer is a stateful visitor over a pre-order stream of
`(node, entering)` traversal events.  We embed the renderer state as an
explicit record and every prototype method of `HtmlRenderer` as a Lean
function threading that state.  Machine strings are Lean `String`s
(`List Char` under the hood); the two regular expressions of the source
(`reHtmlTag`, `reUnsafeProtocol`, `reSafeDataProtocol`) are embedded as
executable functions over character lists with JavaScript's leftmost-match
/ unanchored-alternative semantics spelled out.
-/

namespace HtmlRenderer

/-- A document node, read-only for the renderer.  Fields mirror the node
fields that `src/lib/html.js` reads: `type`, `literal`, `destination`,
`title`, `info`, `level`, `listType`, `listStart`, `listTight`,
`sourcepos` and the `parent` back-reference (`none` models JavaScript
`null`).  `listStart : Option Int` models "starting ordinal or absent". -/
inductive Node where
  | mk : String → String → String → String → String → Nat → String → Option Int → Bool →
      Option ((Nat × Nat) × (Nat × Nat)) → Option Node → Node

def Node.type : Node → String
  | Node.mk t _ _ _ _ _ _ _ _ _ _ => t

def Node.literal : Node → String
  | Node.mk _ l _ _ _ _ _ _ _ _ _ => l

def Node.destination : Node → String
  | Node.mk _ _ d _ _ _ _ _ _ _ _ => d

def Node.title : Node → String
  | Node.mk _ _ _ t _ _ _ _ _ _ _ => t

def Node.info : Node → String
  | Node.mk _ _ _ _ i _ _ _ _ _ _ => i

def Node.level : Node → Nat
  | Node.mk _ _ _ _ _ n _ _ _ _ _ => n

def Node.listType : Node → String
  | Node.mk _ _ _ _ _ _ k _ _ _ _ => k

def Node.listStart : Node → Option Int
  | Node.mk _ _ _ _ _ _ _ s _ _ _ => s

def Node.listTight : Node → Bool
  | Node.mk _ _ _ _ _ _ _ _ b _ _ => b

def Node.sourcepos : Node → Option ((Nat × Nat) × (Nat × Nat))
  | Node.mk _ _ _ _ _ _ _ _ _ p _ => p

def Node.parent : Node → Option Node
  | Node.mk _ _ _ _ _ _ _ _ _ _ p => p

/-- A traversal event `(node, entering)` as produced by `block.walker()`. -/
structure Event where
  node : Node
  entering : Bool

/-- The renderer options read by `src/lib/html.js`, plus the `SOFTBREAK`
field of the renderer object (default `"\n"`). -/
structure Options where
  safe : Bool
  sourcepos : Bool
  softbreak : String

/-- The mutable renderer state set up at the start of `render`:
`this.buffer`, `this.lastOut` and `this.disableTags`.  `disableTags` is an
`Int` so that the never-negative invariant is expressible. -/
structure RState where
  buffer : String
  lastOut : String
  disableTags : Int
deriving DecidableEq

/-- The initial state of a `render` call: `buffer = ""`, `lastOut = "\n"`,
`disableTags = 0`. -/
def initState : RState := { buffer := "", lastOut := "\n", disableTags := 0 }

/-- Per-character ASCII lowering, embedding JavaScript `toLowerCase` /
the `i` regexp flag for the ASCII strings the renderer compares. -/
def lowerString (s : String) : String := String.mk (s.data.map Char.toLower)

/-- Modelled from the spec: the escape primitive `escapeXml` lives in the
external `./common` module, which is not part of the sources; per the
external-interface contract it escapes `&` to `&amp;`, `<` to `&lt;`,
`>` to `&gt;` always, and additionally `"` to `&quot;` when `isAttr`
is true. -/
def escapeXml (s : String) (isAttr : Bool) : String :=
  String.mk (s.data.foldr
    (fun c acc =>
      if c = '&' then "&amp;".data ++ acc
      else if c = '<' then "&lt;".data ++ acc
      else if c = '>' then "&gt;".data ++ acc
      else if isAttr && c = '"' then "&quot;".data ++ acc
      else c :: acc) [])

/-- Substring test on character lists (JavaScript's unanchored regexp
alternatives match anywhere in the string). -/
def listHasInfix (pat : List Char) : List Char → Bool
  | [] => pat.isEmpty
  | c :: rest => pat.isPrefixOf (c :: rest) || listHasInfix pat rest

/-- `reUnsafeProtocol.test(url)` for
`/^javascript:|vbscript:|file:|data:/i` — note that in this regular
expression the `^` anchor binds only to the `javascript:` alternative;
the other three alternatives match anywhere in the string. -/
def reUnsafeProtocolTest (url : String) : Bool :=
  List.isPrefixOf "javascript:".data (lowerString url).data ||
  listHasInfix "vbscript:".data (lowerString url).data ||
  listHasInfix "file:".data (lowerString url).data ||
  listHasInfix "data:".data (lowerString url).data

/-- `reSafeDataProtocol.test(url)` for
`/^data:image\/(?:png|gif|jpeg|webp)/i` — anchored at the start. -/
def reSafeDataProtocolTest (url : String) : Bool :=
  List.isPrefixOf "data:image/png".data (lowerString url).data ||
  List.isPrefixOf "data:image/gif".data (lowerString url).data ||
  List.isPrefixOf "data:image/jpeg".data (lowerString url).data ||
  List.isPrefixOf "data:image/webp".data (lowerString url).data

/-- `potentiallyUnsafe(url)` from `src/lib/html.js`. -/
def potentiallyUnsafe (url : String) : Bool :=
  reUnsafeProtocolTest url && !reSafeDataProtocolTest url

/-- `s.replace(reHtmlTag, '')` for the non-global `reHtmlTag =`
`/\<[^>]*\>/`: removes the single leftmost substring that starts at a
`<`, runs over non-`>` characters and ends at the first following `>`;
if no such substring exists the input is returned unchanged. -/
def stripFirstTag : List Char → List Char
  | [] => []
  | c :: rest =>
    if c = '<' then
      match rest.dropWhile (fun d => decide (d ≠ '>')) with
      | [] => c :: rest
      | _ :: tl => tl
    else c :: stripFirstTag rest

/-- `HtmlRenderer.prototype.out`. -/
def out (st : RState) (s : String) : RState :=
  if st.disableTags > 0 then
    { st with buffer := st.buffer ++ String.mk (stripFirstTag s.data), lastOut := s }
  else
    { st with buffer := st.buffer ++ s, lastOut := s }

/-- `HtmlRenderer.prototype.cr`. -/
def cr (st : RState) : RState :=
  if st.lastOut ≠ "\n" then { st with buffer := st.buffer ++ "\n", lastOut := "\n" }
  else st

/-- The attribute text accumulated by the `while` loop of
`HtmlRenderer.prototype.tag`: one ` name="value"` chunk per pair. -/
def attrsText : List (String × String) → String
  | [] => ""
  | (k, v) :: rest => " " ++ k ++ "=\"" ++ v ++ "\"" ++ attrsText rest

/-- `HtmlRenderer.prototype.tag`. -/
def tag (name : String) (attrs : List (String × String)) (selfclosing : Bool) : String :=
  "<" ++ name ++ attrsText attrs ++ (if selfclosing then " /" else "") ++ ">"

/-- Render errors and non-handler outcomes of the dispatch lookup:
`unknownType` is the string thrown by the dispatcher when
`this[node.type.toLowerCase()]` is falsy; `typeError` is a JavaScript
TypeError — either a `null` dereference (`node.parent.parent` with
`node.parent === null`) or calling a non-function member (`this.options`,
`this.__proto__`, a nonempty `this.buffer`, a true `this.entering`);
`memberInvoked name` marks the dispatcher finding and calling the
renderer member `name` that is not a per-variant handler and whose effect
lies outside this embedding (the re-entrant `render` over the external
walker, the object-coercing `out`, the external `escape` primitive, and
the re-initializing `constructor`).  What every claim here relies on is
that none of these outcomes is the `Unknown node type` throw. -/
inductive RErr where
  | unknownType : String → RErr
  | typeError : RErr
  | memberInvoked : String → RErr
deriving DecidableEq

/-- `HtmlRenderer.prototype.document`: no output on either phase. -/
def document (st : RState) : RState := st

/-- `HtmlRenderer.prototype.text`. -/
def text (node : Node) (st : RState) : RState :=
  out st (escapeXml node.literal false)

/-- `HtmlRenderer.prototype.softbreak`. -/
def softbreak (opts : Options) (st : RState) : RState :=
  out st opts.softbreak

/-- `HtmlRenderer.prototype.hardbreak`. -/
def hardbreak (st : RState) : RState :=
  cr (out st (tag "br" [] true))

/-- `HtmlRenderer.prototype.emph`. -/
def emph (entering : Bool) (st : RState) : RState :=
  out st (tag (if entering then "em" else "/em") [] false)

/-- `HtmlRenderer.prototype.strong`. -/
def strong (entering : Bool) (st : RState) : RState :=
  out st (tag (if entering then "strong" else "/strong") [] false)

/-- `HtmlRenderer.prototype.html`. -/
def html (opts : Options) (node : Node) (st : RState) : RState :=
  if opts.safe then out st "<!-- raw HTML omitted -->" else out st node.literal

/-- `HtmlRenderer.prototype.link`. -/
def link (opts : Options) (node : Node) (entering : Bool)
    (attrs : List (String × String)) (st : RState) : RState :=
  if entering then
    let attrs1 :=
      if !(opts.safe && potentiallyUnsafe node.destination) then
        attrs ++ [("href", escapeXml node.destination true)]
      else attrs
    let attrs2 :=
      if node.title ≠ "" then attrs1 ++ [("title", escapeXml node.title true)]
      else attrs1
    out st (tag "a" attrs2 false)
  else out st (tag "/a" [] false)

/-- `HtmlRenderer.prototype.image`. -/
def image (opts : Options) (node : Node) (entering : Bool) (st : RState) : RState :=
  if entering then
    let st1 :=
      if st.disableTags = 0 then
        if opts.safe && potentiallyUnsafe node.destination then
          out st "<img src=\"\" alt=\""
        else
          out st ("<img src=\"" ++ escapeXml node.destination true ++ "\" alt=\"")
      else st
    { st1 with disableTags := st1.disableTags + 1 }
  else
    let st1 := { st with disableTags := st.disableTags - 1 }
    if st1.disableTags = 0 then
      let st2 :=
        if node.title ≠ "" then out st1 ("\" title=\"" ++ escapeXml node.title true)
        else st1
      out st2 "\" />"
    else st1

/-- `HtmlRenderer.prototype.code`. -/
def code (node : Node) (st : RState) : RState :=
  out st (tag "code" [] false ++ escapeXml node.literal false ++ tag "/code" [] false)

/-- `node.info.split(/\s+/)`: splits on maximal whitespace runs, keeping a
leading empty field when the string starts with whitespace and a trailing
empty field when it ends with whitespace, like JavaScript.  The first
argument is recursion fuel (the character count bounds the field count). -/
def jsSplitWsAux : Nat → List Char → List Char → List String
  | 0, cs, cur => [String.mk cur.reverse ++ String.mk cs]
  | _ + 1, [], cur => [String.mk cur.reverse]
  | fuel + 1, c :: rest, cur =>
    if c.isWhitespace then
      String.mk cur.reverse :: jsSplitWsAux fuel (rest.dropWhile Char.isWhitespace) []
    else jsSplitWsAux fuel rest (c :: cur)

def jsSplitWs (s : String) : List String :=
  jsSplitWsAux (s.data.length + 1) s.data []

/-- `HtmlRenderer.prototype.codeblock`. -/
def codeblock (node : Node) (attrs : List (String × String)) (st : RState) : RState :=
  let infoWords := if node.info ≠ "" then jsSplitWs node.info else []
  let attrs1 :=
    match infoWords with
    | [] => attrs
    | w :: _ => if w.length > 0 then attrs ++ [("class", "language-" ++ escapeXml w true)] else attrs
  let st1 := cr st
  let st2 := out st1 (tag "pre" [] false ++ tag "code" attrs1 false)
  let st3 := out st2 (escapeXml node.literal false)
  let st4 := out st3 (tag "/code" [] false ++ tag "/pre" [] false)
  cr st4

/-- `HtmlRenderer.prototype.paragraph`.  Reading `node.parent.parent`
dereferences `node.parent`, so a `null` parent raises a TypeError. -/
def paragraph (node : Node) (entering : Bool) (attrs : List (String × String))
    (st : RState) : Except RErr RState :=
  match node.parent with
  | none => Except.error RErr.typeError
  | some p =>
    if (match p.parent with
        | some g => g.type = "List" && g.listTight
        | none => false) then
      Except.ok st
    else if entering then
      Except.ok (out (cr st) (tag "p" attrs false))
    else
      Except.ok (cr (out st (tag "/p" [] false)))

/-- `HtmlRenderer.prototype.blockquote`. -/
def blockquote (entering : Bool) (attrs : List (String × String)) (st : RState) : RState :=
  if entering then cr (out (cr st) (tag "blockquote" attrs false))
  else cr (out (cr st) (tag "/blockquote" [] false))

/-- `HtmlRenderer.prototype.item`. -/
def item (entering : Bool) (attrs : List (String × String)) (st : RState) : RState :=
  if entering then out st (tag "li" attrs false)
  else cr (out st (tag "/li" [] false))

/-- `HtmlRenderer.prototype.list`.  Note: the `start` attribute is pushed
whenever `listStart` is non-null and not `1`, with no check that the list
is ordered. -/
def list (node : Node) (entering : Bool) (attrs : List (String × String))
    (st : RState) : RState :=
  let tagname := if node.listType = "Bullet" then "ul" else "ol"
  if entering then
    let attrs1 :=
      match node.listStart with
      | some start => if start ≠ 1 then attrs ++ [("start", toString start)] else attrs
      | none => attrs
    cr (out (cr st) (tag tagname attrs1 false))
  else
    cr (out (cr st) (tag ("/" ++ tagname) [] false))

/-- `HtmlRenderer.prototype.header`. -/
def header (node : Node) (entering : Bool) (attrs : List (String × String))
    (st : RState) : RState :=
  let tagname := "h" ++ toString node.level
  if entering then out (cr st) (tag tagname attrs false)
  else cr (out st (tag ("/" ++ tagname) [] false))

/-- `HtmlRenderer.prototype.htmlblock`. -/
def htmlblock (opts : Options) (node : Node) (st : RState) : RState :=
  let st1 := cr st
  let st2 :=
    if opts.safe then out st1 "<!-- raw HTML omitted -->" else out st1 node.literal
  cr st2

/-- `HtmlRenderer.prototype.horizontalrule`. -/
def horizontalrule (attrs : List (String × String)) (st : RState) : RState :=
  cr (out (cr st) (tag "hr" attrs true))

/-- The 18 per-variant handler method names defined on the renderer
prototype in `src/lib/html.js`. -/
def handlerName (m : String) : Bool :=
  m = "document" || m = "text" || m = "softbreak" || m = "hardbreak" ||
  m = "emph" || m = "strong" || m = "html" || m = "link" || m = "image" ||
  m = "code" || m = "codeblock" || m = "paragraph" || m = "blockquote" ||
  m = "item" || m = "list" || m = "header" || m = "htmlblock" ||
  m = "horizontalrule"

/-- The other names on which the property lookup `this[method]` finds an
unconditionally truthy member of the renderer object: the prototype
methods `render`, `out`, `cr`, `tag` and (via the default prototype
record) `constructor`, the instance fields `escape` (a function) and
`options` (an object — `options || {}` is always truthy), and the
inherited lowercase `__proto__` accessor.  No other inherited name is
reachable, because the lookup key is lowercased while the remaining
members of `Object.prototype` and the fields `SOFTBREAK`, `lastOut` and
`disableTags` contain uppercase letters.  The own fields `buffer` and
`entering` are reachable but only conditionally truthy, so they are
handled separately in `foundMember`. -/
def helperMemberName (m : String) : Bool :=
  m = "render" || m = "out" || m = "cr" || m = "tag" || m = "escape" ||
  m = "options" || m = "constructor" || m = "__proto__"

/-- Whether `this[node.type.toLowerCase()]` is truthy in the given state:
one of the 18 per-variant handlers, another renderer member, the `buffer`
field when the buffer is nonempty, or the `entering` field on an enter
event.  The dispatcher throws `Unknown node type` exactly when this
lookup is falsy. -/
def foundMember (st : RState) (entering : Bool) (t : String) : Bool :=
  let m := lowerString t
  handlerName m || helperMemberName m ||
  (m = "buffer" && st.buffer ≠ "") || (m = "entering" && entering)

/-- The dispatch step of `render`: `var method = node.type.toLowerCase();`
followed by `if (this[method]) { this[method](node, attrs); } else
{ throw "Unknown node type " + node.type; }`.  The lookup finds not only
the 18 per-variant handlers but every truthy member of the renderer
object (see `helperMemberName` and `foundMember`), and then calls it:
`cr` performs an ordinary `cr()` (its arguments are ignored) and `tag`
builds and discards a tag string, leaving the state unchanged; calling
the non-function members `options`, `__proto__`, a truthy `buffer` or a
true `entering` raises a TypeError; and `render`, `out`, `escape` and
`constructor` are invoked with effects beyond this embedding (modelled by
the distinct `memberInvoked` outcome).  Only a falsy lookup produces the
`Unknown node type` throw. -/
def dispatch (opts : Options) (node : Node) (entering : Bool)
    (attrs : List (String × String)) (st : RState) : Except RErr RState :=
  let m := lowerString node.type
  if m = "document" then Except.ok (document st)
  else if m = "text" then Except.ok (text node st)
  else if m = "softbreak" then Except.ok (softbreak opts st)
  else if m = "hardbreak" then Except.ok (hardbreak st)
  else if m = "emph" then Except.ok (emph entering st)
  else if m = "strong" then Except.ok (strong entering st)
  else if m = "html" then Except.ok (html opts node st)
  else if m = "link" then Except.ok (link opts node entering attrs st)
  else if m = "image" then Except.ok (image opts node entering st)
  else if m = "code" then Except.ok (code node st)
  else if m = "codeblock" then Except.ok (codeblock node attrs st)
  else if m = "paragraph" then paragraph node entering attrs st
  else if m = "blockquote" then Except.ok (blockquote entering attrs st)
  else if m = "item" then Except.ok (item entering attrs st)
  else if m = "list" then Except.ok (list node entering attrs st)
  else if m = "header" then Except.ok (header node entering attrs st)
  else if m = "htmlblock" then Except.ok (htmlblock opts node st)
  else if m = "horizontalrule" then Except.ok (horizontalrule attrs st)
  else if m = "render" then Except.error (RErr.memberInvoked "render")
  else if m = "out" then Except.error (RErr.memberInvoked "out")
  else if m = "cr" then Except.ok (cr st)
  else if m = "tag" then Except.ok st
  else if m = "escape" then Except.error (RErr.memberInvoked "escape")
  else if m = "options" then Except.error RErr.typeError
  else if m = "constructor" then Except.error (RErr.memberInvoked "constructor")
  else if m = "__proto__" then Except.error RErr.typeError
  else if m = "buffer" then
    if st.buffer ≠ "" then Except.error RErr.typeError
    else Except.error (RErr.unknownType ("Unknown node type " ++ node.type))
  else if m = "entering" then
    if entering then Except.error RErr.typeError
    else Except.error (RErr.unknownType ("Unknown node type " ++ node.type))
  else Except.error (RErr.unknownType ("Unknown node type " ++ node.type))

/-- The source-position attribute list computed once per event before
dispatch, when the `sourcepos` option is set. -/
def mkAttrs (opts : Options) (node : Node) : List (String × String) :=
  if opts.sourcepos then
    match node.sourcepos with
    | some pos =>
      [("data-sourcepos", toString pos.1.1 ++ ":" ++ toString pos.1.2 ++ "-" ++
        toString pos.2.1 ++ ":" ++ toString pos.2.2)]
    | none => []
  else []

/-- The event loop of `HtmlRenderer.prototype.render` over an explicit
event list, starting from a given state. -/
def renderEvents (opts : Options) : List Event → RState → Except RErr RState
  | [], st => Except.ok st
  | e :: rest, st =>
    match dispatch opts e.node e.entering (mkAttrs opts e.node) st with
    | Except.error err => Except.error err
    | Except.ok st1 => renderEvents opts rest st1

/-- `HtmlRenderer.prototype.render`: fresh state, event loop, and the
accumulated buffer as result; a thrown error yields no output string. -/
def render (opts : Options) (events : List Event) : Except RErr String :=
  match renderEvents opts events initState with
  | Except.error err => Except.error err
  | Except.ok st => Except.ok st.buffer

/-- Processing a sequence of image enter/exit flags with the `image`
handler (`true` = enter, `false` = exit). -/
def processImages (opts : Options) (node : Node) : List Bool → RState → RState
  | [], st => st
  | e :: rest, st => processImages opts node rest (image opts node e st)

/-! Spec-side definitions, used only to compare the code against the
specification's words. -/

/-- The URL classification exactly as the specification words it: the url
must case-insensitively START WITH one of the four scheme prefixes (and
not match the anchored image-data allow-list).  This is the spec's
reading, to be compared against `potentiallyUnsafe` above. -/
def specStartsUnsafe (url : String) : Bool :=
  (List.isPrefixOf "javascript:".data (lowerString url).data ||
   List.isPrefixOf "vbscript:".data (lowerString url).data ||
   List.isPrefixOf "file:".data (lowerString url).data ||
   List.isPrefixOf "data:".data (lowerString url).data) &&
  !reSafeDataProtocolTest url

/-- Global tag stripping as the specification words it for `emit`: EVERY
substring matching the HTML tag pattern is removed, scanning left to
right and continuing after each removed match.  The first argument is
recursion fuel (the character count suffices). -/
def specStripAllAux : Nat → List Char → List Char
  | 0, cs => cs
  | _ + 1, [] => []
  | fuel + 1, c :: rest =>
    if c = '<' then
      match rest.dropWhile (fun d => decide (d ≠ '>')) with
      | [] => c :: rest
      | _ :: tl => specStripAllAux fuel tl
    else c :: specStripAllAux fuel rest

def specStripAllTags (cs : List Char) : List Char :=
  specStripAllAux cs.length cs

/-- Number of occurrences of a pattern in a character list (counted at
every start position). -/
def countOcc (pat : List Char) : List Char → Nat
  | [] => 0
  | c :: rest => (if pat.isPrefixOf (c :: rest) then 1 else 0) + countOcc pat rest

/-- Balanced image enter/exit sequences (`true` = enter, `false` = exit):
equally many enters and exits overall, and no prefix with more exits than
enters — i.e. every enter is matched by a later exit, possibly nested. -/
def ImgBalanced (l : List Bool) : Prop :=
  l.count true = l.count false ∧
  ∀ n : Nat, n ≤ l.length → (l.take n).count false ≤ (l.take n).count true

/-! Concrete fixtures for the event-level theorems. -/

/-- Default options: non-safe mode, no source positions, newline soft
breaks. -/
def opts0 : Options := { safe := false, sourcepos := false, softbreak := "\n" }

/-- An image node with destination `u` and no title. -/
def imgNode : Node := Node.mk "Image" "" "u" "" "" 0 "" none false none none

/-- A tight bullet list node. -/
def tightList : Node := Node.mk "List" "" "" "" "" 0 "Bullet" none true none none

/-- A list item inside `tightList`. -/
def tightItem : Node := Node.mk "Item" "" "" "" "" 0 "" none false none (some tightList)

/-- A paragraph whose grandparent is the tight list. -/
def tightPara : Node := Node.mk "Paragraph" "" "" "" "" 0 "" none false none (some tightItem)

/-- A text child of `tightPara` with literal `hi`. -/
def tightText : Node := Node.mk "Text" "hi" "" "" "" 0 "" none false none (some tightPara)

/-- A BULLET list node carrying `listStart = 5`. -/
def bulletStart5 : Node := Node.mk "List" "" "" "" "" 0 "Bullet" (some 5) false none none

/-- A node whose variant `Foo` is neither a handler nor any other member
of the renderer object. -/
def unknownNode : Node := Node.mk "Foo" "" "" "" "" 0 "" none false none none

/-- A node whose variant `Tag` has no registered per-variant handler, yet
whose lowercased name is found by the property lookup (the `tag` helper
method). -/
def tagTypeNode : Node := Node.mk "Tag" "" "" "" "" 0 "" none false none none

/-! Helper lemmas about the embedded primitives. -/

theorem listHasInfix_iff (pat : List Char) :
    ∀ l : List Char, listHasInfix pat l = true ↔ pat <:+: l := by
  intro l
  induction l with
  | nil =>
    simp [listHasInfix, List.isEmpty_iff]
  | cons c rest ih =>
    simp [listHasInfix, List.isPrefixOf_iff_prefix, ih, List.infix_cons_iff]

theorem dropWhile_to_gt (post : List Char) :
    ∀ mid : List Char, '>' ∉ mid →
      (mid ++ '>' :: post).dropWhile (fun d => decide (d ≠ '>')) = '>' :: post := by
  intro mid
  induction mid with
  | nil =>
    intro _
    rw [List.nil_append, List.dropWhile_cons]
    simp
  | cons c rest ih =>
    intro h
    have hc : c ≠ '>' := fun hceq => h (by simp [hceq])
    have hrest : '>' ∉ rest := fun hmem => h (by simp [hmem])
    rw [List.cons_append, List.dropWhile_cons, if_pos (by simp [hc])]
    exact ih hrest

theorem stripFirstTag_decomp (pre mid post : List Char)
    (hpre : '<' ∉ pre) (hmid : '>' ∉ mid) :
    stripFirstTag (pre ++ '<' :: (mid ++ '>' :: post)) = pre ++ post := by
  induction pre with
  | nil =>
    rw [List.nil_append]
    simp only [stripFirstTag]
    rw [dropWhile_to_gt post mid hmid]
    simp
  | cons c rest ih =>
    have hc : c ≠ '<' := fun hceq => hpre (by simp [hceq])
    have hrest : '<' ∉ rest := fun hmem => hpre (by simp [hmem])
    rw [List.cons_append]
    simp only [stripFirstTag, if_neg hc]
    rw [ih hrest]
    rfl

theorem out_disableTags (st : RState) (s : String) :
    (out st s).disableTags = st.disableTags := by
  unfold out; split <;> rfl

theorem out_lastOut (st : RState) (s : String) :
    (out st s).lastOut = s := by
  unfold out; split <;> rfl

theorem cr_disableTags (st : RState) :
    (cr st).disableTags = st.disableTags := by
  unfold cr; split <;> rfl

theorem string_append_empty (s : String) : s ++ "" = s := by
  apply String.ext
  have h0 : ("" : String).data = [] := rfl
  simp [String.data_append, h0]

/-! C1: the URL safety filter. -/

/-- C1 counterexample: the claim says a string that merely CONTAINS (but
does not start with) `vbscript:` is classified safe, but the code's
regular expression anchor applies only to the `javascript:` alternative:
`potentiallyUnsafe "x-vbscript:1"` is `true` although the string starts
with none of the four scheme prefixes. -/
theorem c1_potentiallyUnsafe_counterexample :
    potentiallyUnsafe "x-vbscript:1" = true ∧ specStartsUnsafe "x-vbscript:1" = false := by
  constructor
  · decide
  · decide

/-- C1 amended: `potentiallyUnsafe url` is true iff the lowercased url
STARTS WITH `javascript:` or CONTAINS `vbscript:`, `file:` or `data:`
anywhere, and does not start with the `data:image/(png|gif|jpeg|webp)`
allow-list prefix (the `^` anchor of the unsafe-protocol regular
expression binds only to its first alternative). -/
theorem c1_potentiallyUnsafe_amended (url : String) :
    potentiallyUnsafe url = true ↔
      (("javascript:".data <+: (lowerString url).data ∨
        "vbscript:".data <:+: (lowerString url).data ∨
        "file:".data <:+: (lowerString url).data ∨
        "data:".data <:+: (lowerString url).data) ∧
       ¬("data:image/png".data <+: (lowerString url).data ∨
         "data:image/gif".data <+: (lowerString url).data ∨
         "data:image/jpeg".data <+: (lowerString url).data ∨
         "data:image/webp".data <+: (lowerString url).data)) := by
  simp only [potentiallyUnsafe, reUnsafeProtocolTest, reSafeDataProtocolTest,
    Bool.and_eq_true, Bool.or_eq_true, Bool.not_eq_true', Bool.or_eq_false_iff,
    Bool.eq_false_iff, ne_eq, listHasInfix_iff, List.isPrefixOf_iff_prefix]
  tauto

/-! C2: `out` under raw suppression. -/

/-- C2 counterexample: with `disableTags = 1`, emitting `"<a><b>"`
appends `"<b>"` (only the FIRST tag match is removed — the spec-worded
global stripping would append the empty string) and sets `lastOut` to the
ORIGINAL `"<a><b>"`, not to the text actually appended. -/
theorem c2_out_counterexample :
    (out { buffer := "", lastOut := "\n", disableTags := 1 } "<a><b>").buffer = "<b>" ∧
    String.mk (specStripAllTags "<a><b>".data) = "" ∧
    (out { buffer := "", lastOut := "\n", disableTags := 1 } "<a><b>").lastOut = "<a><b>" ∧
    (out { buffer := "", lastOut := "\n", disableTags := 1 } "<a><b>").lastOut ≠
      (out { buffer := "", lastOut := "\n", disableTags := 1 } "<a><b>").buffer := by
  refine ⟨by decide, by decide, by decide, by decide⟩

/-- C2 amended: in every state with `disableTags > 0`, `out` appends the
text with only the LEFTMOST substring matching the HTML tag pattern
removed (any later matches survive in `post`), and afterwards `lastOut`
is the ORIGINAL unstripped text. -/
theorem c2_out_amended (st : RState) (s : String) (pre mid post : List Char)
    (hd : 0 < st.disableTags) (hs : s.data = pre ++ '<' :: (mid ++ '>' :: post))
    (hpre : '<' ∉ pre) (hmid : '>' ∉ mid) :
    (out st s).buffer = st.buffer ++ String.mk (pre ++ post) ∧ (out st s).lastOut = s := by
  unfold out
  rw [if_pos hd]
  refine ⟨?_, rfl⟩
  simp only [hs, stripFirstTag_decomp pre mid post hpre hmid]

/-- C2 witness: the amended statement instantiated at the counterexample
input `"<a><b>"` in a state with suppression depth 1. -/
theorem c2_out_amended_witness :
    (0 : Int) < 1 ∧
    ("<a><b>" : String).data = [] ++ '<' :: (['a'] ++ '>' :: "<b>".data) ∧
    ((out { buffer := "", lastOut := "\n", disableTags := 1 } "<a><b>").buffer =
        "" ++ String.mk ([] ++ "<b>".data) ∧
      (out { buffer := "", lastOut := "\n", disableTags := 1 } "<a><b>").lastOut = "<a><b>") := by
  refine ⟨by decide, by decide, ?_⟩
  exact c2_out_amended { buffer := "", lastOut := "\n", disableTags := 1 } "<a><b>"
    [] ['a'] "<b>".data (by decide) (by decide) (by decide) (by decide)

/-! C3: the tag builder and closing names. -/

/-- C3 counterexample: a closing name does NOT make `tag` ignore the
supplied attributes — `tag "/p" [("a", "b")] false` contains the
attribute text instead of being the bare `"</p>"`. -/
theorem c3_tag_counterexample :
    tag "/p" [("a", "b")] false = "</p a=\"b\">" ∧
    tag "/p" [("a", "b")] false ≠ "</p>" := by
  refine ⟨by decide, by decide⟩

theorem attrsText_length_pos (a : String × String) (rest : List (String × String)) :
    0 < (attrsText (a :: rest)).length := by
  obtain ⟨k, v⟩ := a
  simp only [attrsText, String.length_append]
  have h1 : (" " : String).length = 1 := by decide
  omega

/-- C3 amended: `tag` does not special-case names beginning with `/`; it
appends the supplied attribute list for a closing name exactly as for any
other name, so the bare closing tag is produced only when the attribute
list is empty (the renderer's own handlers always pass no attributes with
closing names). -/
theorem c3_tag_amended :
    tag "/p" [] false = "</p>" ∧
    ∀ (name : String) (attrs : List (String × String)) (selfclosing : Bool),
      attrs ≠ [] → tag name attrs selfclosing ≠ tag name [] selfclosing := by
  refine ⟨by decide, ?_⟩
  intro name attrs selfclosing hne heq
  have hlen := congrArg String.length heq
  simp only [tag, String.length_append] at hlen
  have hpos : 0 < (attrsText attrs).length := by
    match attrs, hne with
    | a :: rest, _ => exact attrsText_length_pos a rest
  have h0 : (attrsText []).length = 0 := by decide
  omega

/-- C3 witness: the amended statement instantiated at the closing name
`"/p"` with a nonempty attribute list. -/
theorem c3_tag_amended_witness :
    ([("a", "b")] : List (String × String)) ≠ [] ∧
    tag "/p" [("a", "b")] false ≠ tag "/p" [] false := by
  refine ⟨by decide, ?_⟩
  exact c3_tag_amended.2 "/p" [("a", "b")] false (by decide)

/-! C8: `cr` (ensureLineBreak) is idempotent. -/

/-- C8: `cr` appends a single newline when `lastOut` is not exactly a
newline and is a no-op otherwise; hence calling it twice in a row appends
at most one newline in total, and since `lastOut` starts as a newline, a
leading `cr` before any output appends nothing. -/
theorem c8_cr_idempotent :
    (∀ st : RState, st.lastOut ≠ "\n" →
        cr st = { st with buffer := st.buffer ++ "\n", lastOut := "\n" }) ∧
    (∀ st : RState, st.lastOut = "\n" → cr st = st) ∧
    (∀ st : RState, cr (cr st) = cr st) ∧
    cr initState = initState := by
  have h1 : ∀ st : RState, st.lastOut ≠ "\n" →
      cr st = { st with buffer := st.buffer ++ "\n", lastOut := "\n" } := by
    intro st h
    unfold cr
    rw [if_pos h]
  have h2 : ∀ st : RState, st.lastOut = "\n" → cr st = st := by
    intro st h
    unfold cr
    rw [if_neg (fun hn => hn h)]
  refine ⟨h1, h2, ?_, h2 initState rfl⟩
  intro st
  by_cases h : st.lastOut = "\n"
  · rw [h2 st h]
    exact h2 st h
  · rw [h1 st h]
    exact h2 _ rfl

/-- C8 witness: the single-append clause of the idempotence theorem
instantiated at a state whose `lastOut` is `"x"`. -/
theorem c8_cr_idempotent_witness :
    ({ buffer := "a", lastOut := "x", disableTags := 0 } : RState).lastOut ≠ "\n" ∧
    cr { buffer := "a", lastOut := "x", disableTags := 0 } =
      { buffer := "a" ++ "\n", lastOut := "\n", disableTags := 0 } := by
  refine ⟨by decide, ?_⟩
  exact c8_cr_idempotent.1 { buffer := "a", lastOut := "x", disableTags := 0 } (by decide)

/-! C9: `cr` bypasses the suppression stripping of `out`. -/

/-- C9: `cr` writes its newline to the buffer directly, without the tag
stripping `out` performs, so in every state with `disableTags > 0` a
forced line break still appends a literal newline; in particular
`hardbreak` under suppression has its `<br />` tag stripped entirely yet
still appends a raw newline. -/
theorem c9_cr_bypasses_suppression :
    (∀ st : RState, 0 < st.disableTags → st.lastOut ≠ "\n" →
        (cr st).buffer = st.buffer ++ "\n") ∧
    (∀ st : RState, 0 < st.disableTags →
        hardbreak st = { st with buffer := st.buffer ++ "\n", lastOut := "\n" }) := by
  constructor
  · intro st _ h
    unfold cr
    rw [if_pos h]
  · intro st hd
    unfold hardbreak
    have htag : tag "br" [] true = "<br />" := rfl
    rw [htag]
    unfold out
    rw [if_pos hd]
    have hstrip : String.mk (stripFirstTag "<br />".data) = "" := rfl
    rw [hstrip, string_append_empty]
    unfold cr
    have hne : ("<br />" : String) ≠ "\n" := by decide
    rw [if_pos hne]

/-- C9 witness: the hardbreak clause instantiated at suppression depth 2:
the `<br />` markup is dropped but the raw newline is appended. -/
theorem c9_cr_bypasses_suppression_witness :
    (0 : Int) < 2 ∧
    hardbreak { buffer := "x", lastOut := "y", disableTags := 2 } =
      { buffer := "x" ++ "\n", lastOut := "\n", disableTags := 2 } := by
  refine ⟨by decide, ?_⟩
  exact c9_cr_bypasses_suppression.2 { buffer := "x", lastOut := "y", disableTags := 2 }
    (by decide)

/-! C10: the paragraph handler dereferences the parent unconditionally. -/

/-- C10: dispatching a paragraph event whose node has no parent aborts
with the TypeError of the null dereference `node.parent.parent` — not
with an UnknownVariant error and not with output — and the whole render
call fails the same way. -/
theorem c10_paragraph_null_parent :
    (∀ (opts : Options) (node : Node) (entering : Bool)
        (attrs : List (String × String)) (st : RState),
        lowerString node.type = "paragraph" → node.parent = none →
        dispatch opts node entering attrs st = Except.error RErr.typeError) ∧
    (∀ (opts : Options) (node : Node) (post : List Event),
        lowerString node.type = "paragraph" → node.parent = none →
        render opts ({ node := node, entering := true } :: post) =
          Except.error RErr.typeError) := by
  have hA : ∀ (opts : Options) (node : Node) (entering : Bool)
      (attrs : List (String × String)) (st : RState),
      lowerString node.type = "paragraph" → node.parent = none →
      dispatch opts node entering attrs st = Except.error RErr.typeError := by
    intro opts node entering attrs st ht hp
    simp only [dispatch, ht]
    simp [paragraph, hp]
  refine ⟨hA, ?_⟩
  intro opts node post ht hp
  unfold render renderEvents
  rw [hA opts node true (mkAttrs opts node) initState ht hp]

/-- C10 witness: a parentless paragraph node makes `render` fail with the
TypeError, processing no further events. -/
theorem c10_paragraph_null_parent_witness :
    lowerString (Node.mk "Paragraph" "" "" "" "" 0 "" none false none none).type =
        "paragraph" ∧
    (Node.mk "Paragraph" "" "" "" "" 0 "" none false none none).parent = none ∧
    render opts0
        [{ node := Node.mk "Paragraph" "" "" "" "" 0 "" none false none none,
           entering := true }] =
      Except.error RErr.typeError := by
  refine ⟨by decide, rfl, ?_⟩
  exact c10_paragraph_null_parent.2 opts0
    (Node.mk "Paragraph" "" "" "" "" 0 "" none false none none) [] (by decide) rfl

/-! C5: image nesting and the suppression counter. -/

theorem image_disableTags (opts : Options) (node : Node) (e : Bool) (st : RState) :
    (image opts node e st).disableTags = st.disableTags + (if e then 1 else -1) := by
  cases e <;> simp only [image, if_true, if_false, Bool.false_eq_true, Bool.true_eq_false] <;>
    split <;> (try split) <;> (try simp only [out_disableTags]) <;> omega

theorem processImages_disableTags (opts : Options) (node : Node) :
    ∀ (l : List Bool) (st : RState),
      (processImages opts node l st).disableTags =
        (st.disableTags + l.count true) - l.count false := by
  intro l
  induction l with
  | nil => intro st; simp [processImages]
  | cons e rest ih =>
    intro st
    simp only [processImages]
    rw [ih, image_disableTags]
    cases e <;> simp [List.count_cons] <;> omega

/-- C5: the suppression counter moves by exactly one on each image event
(up on enter, down on exit); over every balanced enter/exit sequence it
returns to its pre-image value and never becomes negative along the way;
and the nested sequence enter,enter,exit,exit ends with the counter at 0
having emitted exactly one outer `<img` structure. -/
theorem c5_image_suppression :
    (∀ (opts : Options) (node : Node) (e : Bool) (st : RState),
        (image opts node e st).disableTags = st.disableTags + (if e then 1 else -1)) ∧
    (∀ (opts : Options) (node : Node) (l : List Bool) (st : RState),
        ImgBalanced l → 0 ≤ st.disableTags →
        (processImages opts node l st).disableTags = st.disableTags ∧
        ∀ n : Nat, 0 ≤ (processImages opts node (l.take n) st).disableTags) ∧
    ((processImages opts0 imgNode [true, true, false, false] initState).disableTags = 0 ∧
      (processImages opts0 imgNode [true, true, false, false] initState).buffer =
        "<img src=\"u\" alt=\"\" />" ∧
      countOcc "<img".data
        ((processImages opts0 imgNode [true, true, false, false] initState).buffer).data =
        1) := by
  refine ⟨image_disableTags, ?_, by decide, by decide, by decide⟩
  intro opts node l st hbal hnn
  constructor
  · rw [processImages_disableTags]
    have h1 := hbal.1
    omega
  · intro n
    rw [processImages_disableTags]
    rcases le_or_lt n l.length with hn | hn
    · have h2 := hbal.2 n hn
      omega
    · have heq : l.take n = l := List.take_of_length_le (le_of_lt hn)
      rw [heq]
      have h1 := hbal.1
      omega

/-- C5 witness: the balanced-sequence clause instantiated at the single
enter/exit pair starting from depth 0. -/
theorem c5_image_suppression_witness :
    ImgBalanced [true, false] ∧ (0 : Int) ≤ initState.disableTags ∧
    ((processImages opts0 imgNode [true, false] initState).disableTags =
        initState.disableTags ∧
      ∀ n : Nat,
        0 ≤ (processImages opts0 imgNode ([true, false].take n) initState).disableTags) := by
  have hbal : ImgBalanced [true, false] := by
    constructor
    · decide
    · intro n hn
      simp only [List.length_cons, List.length_nil] at hn
      interval_cases n <;> decide
  exact ⟨hbal, by decide,
    c5_image_suppression.2.1 opts0 imgNode [true, false] initState hbal (by decide)⟩

/-! C6: paragraph suppression inside tight lists. -/

/-- C6: a paragraph whose grandparent is a list with `listTight = true`
produces no output at all on either phase (the handler returns the state
unchanged) while its children still render; every other paragraph with a
present parent gets the forced line break and `<p>` on enter and `</p>`
plus forced line break on exit.  The concrete event sequence for a tight
list shows the child text rendering with no `<p` anywhere. -/
theorem c6_tight_paragraph :
    (∀ (node : Node) (entering : Bool) (attrs : List (String × String)) (st : RState)
        (p g : Node), node.parent = some p → p.parent = some g →
        g.type = "List" → g.listTight = true →
        paragraph node entering attrs st = Except.ok st) ∧
    (∀ (node : Node) (attrs : List (String × String)) (st : RState) (p : Node),
        node.parent = some p →
        (∀ g : Node, p.parent = some g → ¬(g.type = "List" ∧ g.listTight = true)) →
        paragraph node true attrs st = Except.ok (out (cr st) (tag "p" attrs false)) ∧
        paragraph node false attrs st = Except.ok (cr (out st (tag "/p" [] false)))) ∧
    (render opts0 [{ node := tightList, entering := true },
        { node := tightItem, entering := true },
        { node := tightPara, entering := true },
        { node := tightText, entering := true },
        { node := tightPara, entering := false },
        { node := tightItem, entering := false },
        { node := tightList, entering := false }] =
        Except.ok "<ul>\n<li>hi</li>\n</ul>\n" ∧
      listHasInfix "hi".data "<ul>\n<li>hi</li>\n</ul>\n".data = true ∧
      listHasInfix "<p".data "<ul>\n<li>hi</li>\n</ul>\n".data = false) := by
  refine ⟨?_, ?_, by rfl, by decide, by decide⟩
  · intro node entering attrs st p g hp hg ht htight
    simp [paragraph, hp, hg, ht, htight]
  · intro node attrs st p hp hg
    have hcond : (match p.parent with
        | some g => decide (g.type = "List") && g.listTight
        | none => false) = false := by
      cases hpp : p.parent with
      | none => rfl
      | some g =>
        by_cases hty : g.type = "List"
        · have htight : g.listTight ≠ true := fun h2 => hg g hpp ⟨hty, h2⟩
          simp [hty, htight]
        · simp [hty]
    constructor
    · simp [paragraph, hp, hcond]
    · simp [paragraph, hp, hcond]

/-- C6 witness: the suppression clause instantiated at the tight-list
fixture nodes. -/
theorem c6_tight_paragraph_witness :
    tightPara.parent = some tightItem ∧ tightItem.parent = some tightList ∧
    tightList.type = "List" ∧ tightList.listTight = true ∧
    paragraph tightPara true [] initState = Except.ok initState := by
  refine ⟨rfl, rfl, rfl, rfl, ?_⟩
  exact c6_tight_paragraph.1 tightPara true [] initState tightItem tightList rfl rfl rfl rfl

/-! C7: the dispatcher and UnknownVariant. -/

theorem renderEvents_append (opts : Options) :
    ∀ (l1 l2 : List Event) (st : RState),
      renderEvents opts (l1 ++ l2) st =
        match renderEvents opts l1 st with
        | Except.ok st1 => renderEvents opts l2 st1
        | Except.error err => Except.error err := by
  intro l1
  induction l1 with
  | nil => intro l2 st; rfl
  | cons e rest ih =>
    intro l2 st
    rw [List.cons_append]
    simp only [renderEvents]
    cases dispatch opts e.node e.entering (mkAttrs opts e.node) st with
    | error err => rfl
    | ok st1 => exact ih l2 st1

theorem dispatch_unknown_of_not_found (opts : Options) (node : Node) (entering : Bool)
    (attrs : List (String × String)) (st : RState)
    (h : foundMember st entering node.type = false) :
    dispatch opts node entering attrs st =
      Except.error (RErr.unknownType ("Unknown node type " ++ node.type)) := by
  simp only [foundMember, Bool.or_eq_false_iff] at h
  obtain ⟨⟨⟨hh, hp⟩, hbuf⟩, hent⟩ := h
  simp only [handlerName, Bool.or_eq_false_iff, decide_eq_false_iff_not] at hh
  obtain ⟨⟨⟨⟨⟨⟨⟨⟨⟨⟨⟨⟨⟨⟨⟨⟨⟨h1, h2⟩, h3⟩, h4⟩, h5⟩, h6⟩, h7⟩, h8⟩, h9⟩, h10⟩, h11⟩,
    h12⟩, h13⟩, h14⟩, h15⟩, h16⟩, h17⟩, h18⟩ := hh
  simp only [helperMemberName, Bool.or_eq_false_iff, decide_eq_false_iff_not] at hp
  obtain ⟨⟨⟨⟨⟨⟨⟨p1, p2⟩, p3⟩, p4⟩, p5⟩, p6⟩, p7⟩, p8⟩ := hp
  simp only [dispatch, if_neg h1, if_neg h2, if_neg h3, if_neg h4, if_neg h5, if_neg h6,
    if_neg h7, if_neg h8, if_neg h9, if_neg h10, if_neg h11, if_neg h12, if_neg h13,
    if_neg h14, if_neg h15, if_neg h16, if_neg h17, if_neg h18, if_neg p1, if_neg p2,
    if_neg p3, if_neg p4, if_neg p5, if_neg p6, if_neg p7, if_neg p8]
  by_cases hb : lowerString node.type = "buffer"
  · rw [if_pos hb]
    have hbuf2 : st.buffer = "" := by
      rw [hb] at hbuf
      simpa using hbuf
    rw [if_neg (fun hc => hc hbuf2)]
  · rw [if_neg hb]
    by_cases he : lowerString node.type = "entering"
    · rw [if_pos he]
      have hent2 : entering = false := by
        rw [he] at hent
        simpa using hent
      rw [hent2]
      simp
    · rw [if_neg he]

theorem paragraph_not_unknown (node : Node) (entering : Bool)
    (attrs : List (String × String)) (st : RState) (msg : String) :
    paragraph node entering attrs st ≠ Except.error (RErr.unknownType msg) := by
  intro hcontra
  unfold paragraph at hcontra
  cases hp : node.parent <;> rw [hp] at hcontra
  · simp at hcontra
  · repeat' split at hcontra
    all_goals simp at hcontra

theorem dispatch_found_not_unknown (opts : Options) (node : Node) (entering : Bool)
    (attrs : List (String × String)) (st : RState)
    (h : foundMember st entering node.type = true) (msg : String) :
    dispatch opts node entering attrs st ≠ Except.error (RErr.unknownType msg) := by
  simp only [foundMember, Bool.or_eq_true] at h
  rcases h with ((hh | hp) | hbuf) | hent
  · simp only [handlerName, Bool.or_eq_true, decide_eq_true_eq] at hh
    rcases hh with
      (((((((((((((((((h | h) | h) | h) | h) | h) | h) | h) | h) | h) | h) | h) | h) |
        h) | h) | h) | h) | h) <;>
      simp [dispatch, h]
    exact paragraph_not_unknown node entering attrs st msg
  · simp only [helperMemberName, Bool.or_eq_true, decide_eq_true_eq] at hp
    rcases hp with (((((((h | h) | h) | h) | h) | h) | h) | h) <;> simp [dispatch, h]
  · simp only [Bool.and_eq_true, decide_eq_true_eq] at hbuf
    obtain ⟨hm, hb⟩ := hbuf
    simp [dispatch, hm, hb]
  · simp only [Bool.and_eq_true, decide_eq_true_eq] at hent
    obtain ⟨hm, he⟩ := hent
    simp [dispatch, hm, he]

/-- C7 counterexample: the variant `Tag` has no registered per-variant
handler, yet the render does not fail with the Unknown-node-type error:
the property lookup `this["tag"]` finds the `tag` helper method (a truthy
member), the program calls it — building and discarding a string — and
rendering continues, returning an output string. -/
theorem c7_unknown_variant_counterexample :
    handlerName (lowerString tagTypeNode.type) = false ∧
    render opts0 [{ node := tagTypeNode, entering := true }] = Except.ok "" := by
  refine ⟨by decide, by rfl⟩

/-- C7 amended: the dispatcher throws `Unknown node type` exactly when
the lowercased variant name is a falsy property of the renderer — neither
one of the 18 per-variant handlers, nor one of the other members
(`render`, `out`, `cr`, `tag`, `escape`, `options`, `constructor`,
`__proto__`), nor `buffer` while the buffer is nonempty, nor `entering`
on an enter event.  When such an event is reached after a successfully
processed prefix, the whole render fails with that error carrying the
variant name, the events after it are never processed (the result is
independent of them) and no output string is returned; conversely the
error arises only from an event whose lowercased variant is outside the
handler and member names. -/
theorem c7_unknown_variant_amended :
    (∀ (opts : Options) (node : Node) (entering : Bool)
        (attrs : List (String × String)) (st : RState),
        dispatch opts node entering attrs st =
            Except.error (RErr.unknownType ("Unknown node type " ++ node.type)) ↔
          foundMember st entering node.type = false) ∧
    (∀ (opts : Options) (pre : List Event) (e : Event) (post : List Event) (st : RState),
        renderEvents opts pre initState = Except.ok st →
        foundMember st e.entering e.node.type = false →
        render opts (pre ++ e :: post) =
          Except.error (RErr.unknownType ("Unknown node type " ++ e.node.type))) ∧
    (∀ (opts : Options) (events : List Event) (msg : String),
        render opts events = Except.error (RErr.unknownType msg) →
        ∃ e ∈ events,
          (handlerName (lowerString e.node.type) ||
            helperMemberName (lowerString e.node.type)) = false) := by
  refine ⟨?_, ?_, ?_⟩
  · intro opts node entering attrs st
    constructor
    · intro hd
      cases hf : foundMember st entering node.type
      · rfl
      · exact absurd hd (dispatch_found_not_unknown opts node entering attrs st hf _)
    · exact dispatch_unknown_of_not_found opts node entering attrs st
  · intro opts pre e post st hpre hbad
    unfold render
    rw [renderEvents_append opts pre (e :: post) initState, hpre]
    simp only [renderEvents]
    rw [dispatch_unknown_of_not_found opts e.node e.entering (mkAttrs opts e.node) st hbad]
  · intro opts events msg hr
    have haux : ∀ (l : List Event) (st : RState),
        renderEvents opts l st = Except.error (RErr.unknownType msg) →
        ∃ e ∈ l,
          (handlerName (lowerString e.node.type) ||
            helperMemberName (lowerString e.node.type)) = false := by
      intro l
      induction l with
      | nil =>
        intro st h
        exact absurd h (by simp [renderEvents])
      | cons e rest ih =>
        intro st h
        simp only [renderEvents] at h
        cases hd : dispatch opts e.node e.entering (mkAttrs opts e.node) st with
        | error a =>
          rw [hd] at h
          have ha : a = RErr.unknownType msg := by
            simpa using h
          by_cases hv : (handlerName (lowerString e.node.type) ||
              helperMemberName (lowerString e.node.type)) = false
          · exact ⟨e, List.mem_cons_self e rest, hv⟩
          · have hv3 : (handlerName (lowerString e.node.type) ||
                helperMemberName (lowerString e.node.type)) = true := by
              cases hb : (handlerName (lowerString e.node.type) ||
                  helperMemberName (lowerString e.node.type))
              · exact absurd hb hv
              · rfl
            have hv2 : foundMember st e.entering e.node.type = true := by
              simp only [Bool.or_eq_true] at hv3
              simp only [foundMember, Bool.or_eq_true]
              tauto
            rw [ha] at hd
            exact absurd hd
              (dispatch_found_not_unknown opts e.node e.entering (mkAttrs opts e.node) st
                hv2 msg)
        | ok st1 =>
          rw [hd] at h
          obtain ⟨e2, he2, hbad2⟩ := ih st1 h
          exact ⟨e2, List.mem_cons_of_mem e he2, hbad2⟩
    unfold render at hr
    cases hre : renderEvents opts events initState with
    | error a =>
      rw [hre] at hr
      have ha : a = RErr.unknownType msg := by simpa using hr
      rw [ha] at hre
      exact haux events initState hre
    | ok st =>
      rw [hre] at hr
      simp at hr

/-- C7 witness: the render-level failure clause of the amended theorem
instantiated at a single event whose variant `Foo` matches no renderer
member. -/
theorem c7_unknown_variant_amended_witness :
    renderEvents opts0 [] initState = Except.ok initState ∧
    foundMember initState true unknownNode.type = false ∧
    render opts0 ([] ++ { node := unknownNode, entering := true } :: []) =
      Except.error (RErr.unknownType ("Unknown node type " ++ unknownNode.type)) := by
  refine ⟨rfl, by decide, ?_⟩
  exact c7_unknown_variant_amended.2.1 opts0 []
    { node := unknownNode, entering := true } [] initState rfl (by decide)

/-! C4: the `start` attribute of list open tags. -/

theorem tag_ne_newline (name : String) (attrs : List (String × String)) (sc : Bool) :
    tag name attrs sc ≠ "\n" := by
  intro h
  have hd := congrArg String.data h
  rw [tag] at hd
  simp only [String.data_append] at hd
  simp at hd

theorem cr_out_init (T : String) (hT : T ≠ "\n") :
    cr (out (cr initState) T) =
      { buffer := "" ++ T ++ "\n", lastOut := "\n", disableTags := 0 } := by
  have h1 : cr initState = initState := rfl
  rw [h1]
  have h2 : out initState T =
      { buffer := "" ++ T, lastOut := T, disableTags := 0 } := rfl
  rw [h2]
  unfold cr
  rw [if_pos hT]

theorem list_enter_init (nd : Node) (attrs : List (String × String)) :
    list nd true attrs initState =
      { buffer := "" ++ tag (if nd.listType = "Bullet" then "ul" else "ol")
          (match nd.listStart with
            | some s => if s ≠ 1 then attrs ++ [("start", toString s)] else attrs
            | none => attrs) false ++ "\n",
        lastOut := "\n", disableTags := 0 } := by
  show cr (out (cr initState) (tag _ _ false)) = _
  exact cr_out_init _ (tag_ne_newline _ _ _)

/-- C4 counterexample: a BULLET list node carrying `listStart = 5` does
receive a `start="5"` attribute on its `<ul>` open tag, because the
handler checks only that `listStart` is non-null and differs from 1 — it
never checks that the list is ordered. -/
theorem c4_list_start_counterexample :
    (list bulletStart5 true [] initState).buffer = "<ul start=\"5\">\n" ∧
    bulletStart5.listType = "Bullet" ∧
    listHasInfix "start=\"".data ((list bulletStart5 true [] initState).buffer).data =
      true := by
  refine ⟨by decide, rfl, by decide⟩

/-- C4 amended: on list-enter (from the initial state, with no extra
attributes) the open tag contains `start="` iff `listStart` is defined
and differs from 1 — REGARDLESS of the list kind; the kind only selects
`ul` versus `ol`. -/
theorem c4_list_start_amended (ltype : String) (ls : Option Int) (tight : Bool) :
    ("start=\"".data <:+:
        ((list (Node.mk "List" "" "" "" "" 0 ltype ls tight none none) true []
          initState).buffer).data) ↔
      (ls ≠ none ∧ ls ≠ some 1) := by
  rw [list_enter_init]
  simp only [Node.listType, Node.listStart]
  have e0 : ("" : String).data = [] := rfl
  have e1 : ("<" : String).data = ['<'] := rfl
  have e2 : ("ul" : String).data = ['u', 'l'] := rfl
  have e3 : ("ol" : String).data = ['o', 'l'] := rfl
  have e4 : (" " : String).data = [' '] := rfl
  have e5 : ("start" : String).data = ['s', 't', 'a', 'r', 't'] := rfl
  have e6 : ("=\"" : String).data = ['=', '"'] := rfl
  have e7 : ("\"" : String).data = ['"'] := rfl
  have e8 : (">" : String).data = ['>'] := rfl
  have e9 : ("\n" : String).data = ['\n'] := rfl
  have e10 : ("start=\"" : String).data = ['s', 't', 'a', 'r', 't', '=', '"'] := rfl
  rcases ls with _ | s
  · simp only [ne_eq, not_true_eq_false, false_and, iff_false]
    by_cases hb : ltype = "Bullet" <;> simp only [hb, if_pos, if_neg, if_true, if_false] <;>
      decide
  · by_cases hs : s = 1
    · subst hs
      simp only [ne_eq, not_true_eq_false, and_false, iff_false]
      by_cases hb : ltype = "Bullet" <;>
        simp only [hb, if_pos, if_neg, if_true, if_false, not_true_eq_false, ite_false] <;>
        decide
    · have hrhs : (some s ≠ none ∧ some s ≠ some 1) := by
        constructor
        · simp
        · simp [hs]
      refine iff_of_true ?_ hrhs
      show ['s', 't', 'a', 'r', 't', '=', '"'] <:+:
        ("" ++ tag (if ltype = "Bullet" then "ul" else "ol")
          (if s ≠ 1 then [] ++ [("start", toString s)] else []) false ++ "\n").data
      rw [if_pos hs]
      by_cases hb : ltype = "Bullet"
      · rw [hb, if_pos rfl]
        refine ⟨['<', 'u', 'l', ' '], (toString s).data ++ ['"', '>', '\n'], ?_⟩
        simp only [tag, attrsText, string_append_empty, String.data_append, e0, e1, e2, e4,
          e5, e6, e7, e8, e9, e10, if_false, Bool.false_eq_true, List.cons_append,
          List.nil_append, List.append_assoc]
      · rw [if_neg hb]
        refine ⟨['<', 'o', 'l', ' '], (toString s).data ++ ['"', '>', '\n'], ?_⟩
        simp only [tag, attrsText, string_append_empty, String.data_append, e0, e1, e3, e4,
          e5, e6, e7, e8, e9, e10, if_false, Bool.false_eq_true, List.cons_append,
          List.nil_append, List.append_assoc]

end HtmlRenderer
